import Mathlib

/-!
Shallow embedding of the streaming GPX parser: the tag-verification
primitive (src/src/parser/mod.rs, `verify_starting_tag`), the string leaf
consumer (src/src/parser/string.rs), the copyright consumer
(src/src/parser/copyright.rs) and the track-segment consumer
(src/src/parser/tracksegment.rs).

The token stream (`Peekable<Events<R>>` over xml-rs) is embedded as a list
of `Except String XmlEvent`: each item is either a decoded structural event
or a tokenizer failure carrying its message.  `next()` is head/tail,
`peek()` is head without dropping it.  Every consumer becomes a function
from the stream to a result paired with the remaining stream.
-/

/-- An attribute of an opening tag (xml-rs `OwnedAttribute`), reduced to the two
fields the parser inspects: the local name and the value. -/
structure OwnedAttribute where
  name : String
  value : String
deriving DecidableEq

/-- One structural event from the XML token stream (xml-rs `XmlEvent`), reduced
to the fields the parser inspects; element names stand for `local_name`.
`create_context` enables `whitespace_to_characters` and `cdata_to_characters`,
so whitespace and CDATA arrive as `characters`; all remaining non-structural
events (`StartDocument`, comments, processing instructions, ...) are `other`. -/
inductive XmlEvent where
  | startElement (name : String) (attributes : List OwnedAttribute)
  | endElement (name : String)
  | characters (content : String)
  | other
deriving DecidableEq

/-- The error type of the parser.  The defining module (errors.rs) is not part
of src/, so the variants are reconstructed from their use sites in the parser
modules: `invalidChildElement`, `missingOpeningTag`, `invalidClosingTag`,
`missingClosingTag`, `noStringContent`, `eventParsingError` and
`trackSegmentError` appear literally in src/src/parser.  `xmlParseError`
is modelled from the spec: it stands for the `From` conversion invoked by the
`event?` operator in string.rs, which per the spec surfaces the underlying
tokenization error verbatim.  `missingAttribute` and `attributeParseError` are
modelled from the spec for the waypoint consumer (required lat/lon attributes,
hard failure when absent or unparsable). -/
inductive GpxError where
  | invalidChildElement (found : String) (expected : String)
  | missingOpeningTag (expected : String)
  | invalidClosingTag (found : String) (expected : String)
  | missingClosingTag (expected : String)
  | noStringContent
  | eventParsingError (entity : String)
  | trackSegmentError
  | xmlParseError (err : String)
  | missingAttribute (attr : String) (entity : String)
  | attributeParseError (attr : String) (entity : String)
deriving DecidableEq

deriving instance DecidableEq for Except

/-- The token stream: each item is a decoded event or a tokenizer failure. -/
abbrev Events := List (Except String XmlEvent)

/-- `verify_starting_tag` from src/src/parser/mod.rs: loop over `next()`;
a matching `StartElement` returns its attributes, a non-matching
`StartElement`, an `EndElement` or `Characters` fail with
`InvalidChildElement`, anything else — including a tokenizer failure — is
skipped; stream exhaustion fails with `MissingOpeningTag`. -/
def verify_starting_tag (stream : Events) (local_name : String) :
    Except GpxError (List OwnedAttribute) × Events :=
  match stream with
  | [] => (.error (.missingOpeningTag local_name), [])
  | .ok (.startElement name attributes) :: rest =>
      if name ≠ local_name then (.error (.invalidChildElement name local_name), rest)
      else (.ok attributes, rest)
  | .ok (.endElement name) :: rest =>
      (.error (.invalidChildElement name local_name), rest)
  | .ok (.characters chars) :: rest =>
      (.error (.invalidChildElement chars local_name), rest)
  | .ok .other :: rest => verify_starting_tag rest local_name
  | .error _ :: rest => verify_starting_tag rest local_name

/-- The text-accumulation loop of `string::consume` (src/src/parser/string.rs):
`for event in context.reader()` with `event?`.  A nested `StartElement` is an
error, `Characters` overwrites the accumulator, a matching `EndElement`
returns the accumulator (empty only when allowed), a mismatched `EndElement`
is an error, everything else is skipped; exhaustion is `MissingClosingTag`. -/
def stringConsumeLoop (events : Events) (tagname : String) (allow_empty : Bool)
    (strAcc : String) : Except GpxError String × Events :=
  match events with
  | [] => (.error (.missingClosingTag tagname), [])
  | .error e :: rest => (.error (.xmlParseError e), rest)
  | .ok (.startElement name _) :: rest =>
      (.error (.invalidChildElement name tagname), rest)
  | .ok (.characters content) :: rest =>
      stringConsumeLoop rest tagname allow_empty content
  | .ok (.endElement name) :: rest =>
      if name ≠ tagname then (.error (.invalidClosingTag name tagname), rest)
      else if allow_empty || !strAcc.isEmpty then (.ok strAcc, rest)
      else (.error .noStringContent, rest)
  | .ok .other :: rest => stringConsumeLoop rest tagname allow_empty strAcc

/-- `string::consume` from src/src/parser/string.rs: verify the opening tag,
then run the accumulation loop starting from the empty string. -/
def string.consume (context : Events) (tagname : String) (allow_empty : Bool) :
    Except GpxError String × Events :=
  match verify_starting_tag context tagname with
  | (.error e, rest) => (.error e, rest)
  | (.ok _, rest) => stringConsumeLoop rest tagname allow_empty ""


/-- Rust `str::parse::<i32>` on a list of characters: an optional sign
followed by at least one ASCII digit; rejected when no digit is present, when
a non-digit occurs, or when the value overflows `i32`. -/
def parseI32Chars (chars : List Char) : Option Int :=
  let signed : Bool × List Char :=
    match chars with
    | '-' :: rest => (true, rest)
    | '+' :: rest => (false, rest)
    | l => (false, l)
  match signed with
  | (neg, digits) =>
    if digits.isEmpty then none
    else if !digits.all Char.isDigit then none
    else
      let n : Nat := digits.foldl (fun acc c => acc * 10 + (c.toNat - 48)) 0
      let v : Int := if neg then -(n : Int) else (n : Int)
      if -(2 ^ 31) ≤ v ∧ v ≤ 2 ^ 31 - 1 then some v else none

/-- Rust `str::parse::<i32>`, as invoked on the text of the year child in
copyright.rs (`parse().ok()` makes the caller turn the error into `none`). -/
def parseI32 (s : String) : Option Int :=
  parseI32Chars s.data

/-- The `GpxCopyright` value built by copyright.rs.  Its defining module
(types) is not part of src/, but the three fields and their optionality are
fixed by the use sites in copyright.rs (`copyright.author = attr.map(..)`,
`copyright.year = ...parse().ok()`, `copyright.license = Some(..)`); `Default`
yields all fields absent.  The year is embedded as an `Int` restricted to the
`i32` range by `parseI32`. -/
structure GpxCopyright where
  author : Option String := none
  year : Option Int := none
  license : Option String := none
deriving DecidableEq

/-- The peek-driven child loop of `copyright::consume`
(src/src/parser/copyright.rs): peek; a tokenizer failure returns
`EventParsingError("copyright")` with the failure still on the stream; a
`license`/`year` child is dispatched to `string::consume` (the year text then
goes through `parse().ok()`, unparsable text degrading to absent); any other
child name fails with `InvalidChildElement` without consuming the peeked
event; `EndElement` named `copyright` is consumed and succeeds, any other
`EndElement` fails with `InvalidClosingTag` without consuming it; every other
event — `Characters` included — is consumed and ignored; exhaustion is
`MissingClosingTag`.

The extra `Nat` argument is a fuel bound on the number of loop iterations,
needed because the loop consumes the stream through nested consumers rather
than structurally.  Every iteration that continues the loop removes at least
one event from the stream, so the caller's choice of the stream length as the
fuel makes the zero-fuel-with-nonempty-stream case unreachable; that case is
written to mirror stream exhaustion. -/
def copyrightConsumeLoop : Nat → Events → GpxCopyright →
    Except GpxError GpxCopyright × Events
  | _, [], _ => (.error (.missingClosingTag "copyright"), [])
  | 0, e :: rest, _ => (.error (.missingClosingTag "copyright"), e :: rest)
  | fuel + 1, .error e :: rest, _ =>
      (.error (.eventParsingError "copyright"), .error e :: rest)
  | fuel + 1, .ok (.startElement name attrs) :: rest, copyright =>
      if name = "license" then
        match string.consume (.ok (.startElement name attrs) :: rest) "license" false with
        | (.ok v, s) => copyrightConsumeLoop fuel s { copyright with license := some v }
        | (.error err, s) => (.error err, s)
      else if name = "year" then
        match string.consume (.ok (.startElement name attrs) :: rest) "year" false with
        | (.ok v, s) => copyrightConsumeLoop fuel s { copyright with year := parseI32 v }
        | (.error err, s) => (.error err, s)
      else
        (.error (.invalidChildElement name "copyright"),
          .ok (.startElement name attrs) :: rest)
  | fuel + 1, .ok (.endElement name) :: rest, copyright =>
      if name ≠ "copyright" then
        (.error (.invalidClosingTag name "copyright"), .ok (.endElement name) :: rest)
      else (.ok copyright, rest)
  | fuel + 1, .ok (.characters _) :: rest, copyright =>
      copyrightConsumeLoop fuel rest copyright
  | fuel + 1, .ok .other :: rest, copyright =>
      copyrightConsumeLoop fuel rest copyright

/-- `copyright::consume` from src/src/parser/copyright.rs: start from
`Default`, verify the `copyright` opening tag, take the `author` attribute
value if present, then run the child loop (fueled by the remaining stream
length, an upper bound on its iteration count). -/
def copyright.consume (context : Events) : Except GpxError GpxCopyright × Events :=
  match verify_starting_tag context "copyright" with
  | (.error e, rest) => (.error e, rest)
  | (.ok attributes, rest) =>
      let attr := attributes.find? (fun a => a.name == "author")
      copyrightConsumeLoop rest.length rest { author := attr.map (fun a => a.value) }

/-- Helper for the float-literal recognizer: all characters are ASCII digits. -/
def allDigits (l : List Char) : Bool := l.all Char.isDigit

/-- Helper for the float-literal recognizer: a decimal mantissa — digits,
optionally split by a single dot, with at least one digit present. -/
def isF64Mantissa (l : List Char) : Bool :=
  let ip := l.takeWhile Char.isDigit
  match l.dropWhile Char.isDigit with
  | [] => !ip.isEmpty
  | '.' :: fp => allDigits fp && !(ip.isEmpty && fp.isEmpty)
  | _ => false

/-- Modelled from the spec: the success domain of Rust `str::parse::<f64>`,
which waypoint parsing (src/parser/waypoint.rs, not part of src/) applies to
the required `lat`/`lon` attributes — "required numeric attributes (waypoint
`lat`/`lon`) that fail to parse are a hard failure".  Only parse success or
failure steers the parser, so the recognizer decides membership in f64
literal syntax (optional sign, then a decimal mantissa with optional
exponent, or inf/infinity/nan case-insensitively) without computing the
floating-point value. -/
def isF64Lit (s : String) : Bool :=
  let l := match s.data with
           | c :: rest => if c = '+' ∨ c = '-' then rest else s.data
           | [] => []
  let low := l.map Char.toLower
  if low = ['i', 'n', 'f'] ∨ low = ['i', 'n', 'f', 'i', 'n', 'i', 't', 'y'] ∨
      low = ['n', 'a', 'n'] then true
  else
    let notExp : Char → Bool := fun c => !(c == 'e') && !(c == 'E')
    let mant := l.takeWhile notExp
    match l.dropWhile notExp with
    | [] => isF64Mantissa mant
    | _ :: ex =>
      let ex2 := match ex with
                 | c :: r => if c = '+' ∨ c = '-' then r else ex
                 | [] => []
      isF64Mantissa mant && !ex2.isEmpty && allDigits ex2

/-- Modelled from the spec: the waypoint value built by waypoint.rs, which is
not part of src/.  The spec requires latitude/longitude from the element's
attributes and lists `name` among the optional children; the claims exercise
only the `name` child, so the other optional scalar children are not carried.
The coordinates are kept as their attribute strings (already checked against
f64 literal syntax by the consumer); no floating-point arithmetic is ever
performed on them. -/
structure Waypoint where
  lat : String
  lon : String
  name : Option String := none
deriving DecidableEq

/-- Modelled from the spec: the child loop of `waypoint::consume`
(src/parser/waypoint.rs, not part of src/), following the shared composite
algorithm of the spec (§4.3) with the child vocabulary restricted to the
`name` leaf, the only child the claims exercise: peek; a `name` child is
dispatched to the string consumer; any other child element fails with an
invalid-child error without consuming the peeked event; the entity's own
closing tag is consumed and succeeds; a mismatched closing tag fails without
consuming it; other events are consumed and ignored; exhaustion is a
missing-closing-tag error.  Fueled like `copyrightConsumeLoop`. -/
def waypointConsumeLoop : Nat → Events → String → Waypoint →
    Except GpxError Waypoint × Events
  | _, [], tagname, _ => (.error (.missingClosingTag tagname), [])
  | 0, e :: rest, tagname, _ => (.error (.missingClosingTag tagname), e :: rest)
  | fuel + 1, .error e :: rest, _, _ =>
      (.error (.eventParsingError "waypoint"), .error e :: rest)
  | fuel + 1, .ok (.startElement name attrs) :: rest, tagname, waypoint =>
      if name = "name" then
        match string.consume (.ok (.startElement name attrs) :: rest) "name" false with
        | (.ok v, s) => waypointConsumeLoop fuel s tagname { waypoint with name := some v }
        | (.error err, s) => (.error err, s)
      else
        (.error (.invalidChildElement name "waypoint"),
          .ok (.startElement name attrs) :: rest)
  | fuel + 1, .ok (.endElement name) :: rest, tagname, waypoint =>
      if name ≠ tagname then
        (.error (.invalidClosingTag name "waypoint"), .ok (.endElement name) :: rest)
      else (.ok waypoint, rest)
  | fuel + 1, .ok (.characters _) :: rest, tagname, waypoint =>
      waypointConsumeLoop fuel rest tagname waypoint
  | fuel + 1, .ok .other :: rest, tagname, waypoint =>
      waypointConsumeLoop fuel rest tagname waypoint

/-- Modelled from the spec: `waypoint::consume` (src/parser/waypoint.rs, not
part of src/), as invoked by tracksegment.rs with tag name `trkpt`: verify
the opening tag, require the `lat` and `lon` attributes ("required fields on
a schema element must be present in the opening tag's attributes or the
consumer fails") and require their values to lie in the success domain of the
f64 parse, then run the child loop. -/
def waypoint.consume (context : Events) (tagname : String) :
    Except GpxError Waypoint × Events :=
  match verify_starting_tag context tagname with
  | (.error e, rest) => (.error e, rest)
  | (.ok attributes, rest) =>
      match attributes.find? (fun a => a.name == "lat"),
          attributes.find? (fun a => a.name == "lon") with
      | some la, some lo =>
          if !isF64Lit la.value then (.error (.attributeParseError "lat" "waypoint"), rest)
          else if !isF64Lit lo.value then (.error (.attributeParseError "lon" "waypoint"), rest)
          else waypointConsumeLoop rest.length rest tagname { lat := la.value, lon := lo.value }
      | none, _ => (.error (.missingAttribute "lat" "waypoint"), rest)
      | some _, none => (.error (.missingAttribute "lon" "waypoint"), rest)

/-- The `TrackSegment` value built by tracksegment.rs.  Its defining module
(types) is not part of src/; the single use site (`segment.points.push(..)`)
fixes an ordered collection of waypoints, empty under `Default`. -/
structure TrackSegment where
  points : List Waypoint := []
deriving DecidableEq

/-- The peek-driven child loop of `tracksegment::consume`
(src/src/parser/tracksegment.rs): peek; a tokenizer failure returns
`TrackSegmentError` with the failure still on the stream; a `trkpt` child is
dispatched to `waypoint::consume` and appended to `points`; any other child
name fails with `InvalidChildElement` (entity rendered "tracksegment")
without consuming the peeked event; `EndElement` named `trkseg` is consumed
and succeeds, any other `EndElement` fails with `InvalidClosingTag` (entity
rendered "trksegment") without consuming it; every other event is consumed
and ignored; exhaustion is `MissingClosingTag("tracksegment")`.  Fueled like
`copyrightConsumeLoop`. -/
def tracksegmentConsumeLoop : Nat → Events → TrackSegment →
    Except GpxError TrackSegment × Events
  | _, [], _ => (.error (.missingClosingTag "tracksegment"), [])
  | 0, e :: rest, _ => (.error (.missingClosingTag "tracksegment"), e :: rest)
  | fuel + 1, .error e :: rest, _ =>
      (.error .trackSegmentError, .error e :: rest)
  | fuel + 1, .ok (.startElement name attrs) :: rest, segment =>
      if name = "trkpt" then
        match waypoint.consume (.ok (.startElement name attrs) :: rest) "trkpt" with
        | (.ok w, s) =>
            tracksegmentConsumeLoop fuel s { segment with points := segment.points ++ [w] }
        | (.error err, s) => (.error err, s)
      else
        (.error (.invalidChildElement name "tracksegment"),
          .ok (.startElement name attrs) :: rest)
  | fuel + 1, .ok (.endElement name) :: rest, segment =>
      if name ≠ "trkseg" then
        (.error (.invalidClosingTag name "trksegment"), .ok (.endElement name) :: rest)
      else (.ok segment, rest)
  | fuel + 1, .ok (.characters _) :: rest, segment =>
      tracksegmentConsumeLoop fuel rest segment
  | fuel + 1, .ok .other :: rest, segment =>
      tracksegmentConsumeLoop fuel rest segment

/-- `tracksegment::consume` from src/src/parser/tracksegment.rs: start from
`Default`, verify the `trkseg` opening tag, then run the child loop (fueled
by the remaining stream length). -/
def tracksegment.consume (context : Events) : Except GpxError TrackSegment × Events :=
  match verify_starting_tag context "trkseg" with
  | (.error e, rest) => (.error e, rest)
  | (.ok _, rest) => tracksegmentConsumeLoop rest.length rest {}

/-- An event is silently skipped by `verify_starting_tag` exactly when it is
neither a decoded `StartElement`, `EndElement` nor `Characters` (tokenizer
failures included, by the catch-all `Some(_) => {}` arm). -/
def skippable : Except String XmlEvent → Bool
  | .ok (.startElement _ _) => false
  | .ok (.endElement _) => false
  | .ok (.characters _) => false
  | .ok .other => true
  | .error _ => true

/-- The event sequence the tokenizer emits for one
`<trkpt lat=.. lon=..><name>..</name></trkpt>` element. -/
def mkTrkptEvents (lat lon nm : String) : Events :=
  [.ok (.startElement "trkpt" [⟨"lat", lat⟩, ⟨"lon", lon⟩]),
   .ok (.startElement "name" []), .ok (.characters nm), .ok (.endElement "name"),
   .ok (.endElement "trkpt")]

/-- The event sequence for a `trkseg` element holding one `trkpt` per listed
(latitude, longitude, name) triple, in order. -/
def mkTrksegEvents (pts : List (String × String × String)) : Events :=
  .ok (.startElement "trkseg" []) ::
    (pts.flatMap (fun p => mkTrkptEvents p.1 p.2.1 p.2.2) ++ [.ok (.endElement "trkseg")])

/-- The waypoint that a well-formed `trkpt` input triple parses to. -/
def trkptValue (p : String × String × String) : Waypoint :=
  { lat := p.1, lon := p.2.1, name := some p.2.2 }

/-- The underlying tokenization error carried verbatim inside a parser error,
when there is one: only the variant produced by the `From` conversion of
`event?` holds the token source's own error. -/
def GpxError.surfacedTokenizerError : GpxError → Option String
  | .xmlParseError e => some e
  | _ => none

/-- An event the composite child loops (copyright, track segment, waypoint)
consume and ignore via their catch-all peek arm: a decoded `Characters` or
`other` event.  Decoded element events and tokenizer failures are not
ignorable — the loops act on those. -/
def compositeIgnorable : Except String XmlEvent → Bool
  | .ok (.characters _) => true
  | .ok .other => true
  | _ => false

theorem verify_starting_tag_skip (e : Except String XmlEvent) (rest : Events)
    (n : String) (h : skippable e = true) :
    verify_starting_tag (e :: rest) n = verify_starting_tag rest n := by
  match e with
  | .ok .other => rfl
  | .error m => rfl
  | .ok (.startElement a b) => simp [skippable] at h
  | .ok (.endElement a) => simp [skippable] at h
  | .ok (.characters a) => simp [skippable] at h

/-- Claim C1: the tag-verification primitive skips every event that is not an
element-open, element-close or text event; a matching element-open returns
its attributes with the stream positioned right after it; a non-matching
element-open, an element-close or a text event fails with the
structural-mismatch error carrying the found name (or text) and the expected
name; exhaustion fails with the missing-opening-tag error. -/
theorem verify_starting_tag_contract (skipped rest : Events) (n : String)
    (hskip : ∀ e ∈ skipped, skippable e = true) :
    (∀ attrs, verify_starting_tag (skipped ++ .ok (.startElement n attrs) :: rest) n
        = (.ok attrs, rest))
  ∧ (∀ name attrs, name ≠ n →
      verify_starting_tag (skipped ++ .ok (.startElement name attrs) :: rest) n
        = (.error (.invalidChildElement name n), rest))
  ∧ (∀ name, verify_starting_tag (skipped ++ .ok (.endElement name) :: rest) n
        = (.error (.invalidChildElement name n), rest))
  ∧ (∀ chars, verify_starting_tag (skipped ++ .ok (.characters chars) :: rest) n
        = (.error (.invalidChildElement chars n), rest))
  ∧ verify_starting_tag skipped n = (.error (.missingOpeningTag n), []) := by
  induction skipped with
  | nil =>
    refine ⟨fun attrs => ?_, fun name attrs hne => ?_, fun name => ?_, fun chars => ?_, rfl⟩
    · simp [verify_starting_tag]
    · simp [verify_starting_tag, hne]
    · simp [verify_starting_tag]
    · simp [verify_starting_tag]
  | cons e tl ih =>
    have he : skippable e = true := hskip e (by simp)
    have ih' := ih (fun x hx => hskip x (by simp [hx]))
    refine ⟨fun attrs => ?_, fun name attrs hne => ?_, fun name => ?_, fun chars => ?_, ?_⟩
    · rw [List.cons_append, verify_starting_tag_skip e _ n he]
      exact ih'.1 attrs
    · rw [List.cons_append, verify_starting_tag_skip e _ n he]
      exact ih'.2.1 name attrs hne
    · rw [List.cons_append, verify_starting_tag_skip e _ n he]
      exact ih'.2.2.1 name
    · rw [List.cons_append, verify_starting_tag_skip e _ n he]
      exact ih'.2.2.2.1 chars
    · rw [verify_starting_tag_skip e _ n he]
      exact ih'.2.2.2.2

theorem verify_starting_tag_contract_witness :
    verify_starting_tag [.error "bad byte", .ok .other, .ok (.startElement "gpx" [])]
      "gpx" = (.ok [], []) :=
  (verify_starting_tag_contract [.error "bad byte", .ok .other] [] "gpx" (by decide)).1 []

theorem string_consume_start (tagname : String) (attrs : List OwnedAttribute)
    (s : Events) (a : Bool) :
    string.consume (.ok (.startElement tagname attrs) :: s) tagname a
      = stringConsumeLoop s tagname a "" := by
  simp [string.consume, verify_starting_tag]

theorem stringConsumeLoop_last (texts : List String) (tagname tlast acc : String)
    (a : Bool) (rest : Events) :
    stringConsumeLoop ((texts.map (fun t => .ok (.characters t))) ++
        .ok (.characters tlast) :: .ok (.endElement tagname) :: rest) tagname a acc
      = if a || !tlast.isEmpty then (.ok tlast, rest)
        else (.error .noStringContent, rest) := by
  induction texts generalizing acc with
  | nil => simp [stringConsumeLoop]
  | cons t ts ih => simpa [stringConsumeLoop] using ih t

/-- Claim C4: a string leaf holding several text events parses to the content
of the last text event alone — earlier text events are overwritten, not
concatenated — in both the empty-allowed and empty-disallowed modes (the
latter provided the final text is non-empty). -/
theorem string_consume_last_text_wins (tagname tlast : String)
    (texts : List String) (h : tlast ≠ "") : ∀ a : Bool,
    string.consume (.ok (.startElement tagname []) ::
        (texts.map (fun t => .ok (.characters t)) ++
          [.ok (.characters tlast), .ok (.endElement tagname)])) tagname a
      = (.ok tlast, []) := by
  intro a
  rw [string_consume_start, stringConsumeLoop_last]
  simp [String.isEmpty_iff, h]

theorem string_consume_last_text_wins_witness :
    string.consume [.ok (.startElement "name" []), .ok (.characters "first"),
        .ok (.characters "second"), .ok (.endElement "name")] "name" false
      = (.ok "second", []) :=
  string_consume_last_text_wins "name" "second" ["first"] (by decide) false

/-- Claim C8: a string leaf with empty accumulated text (the `<foo></foo>`
and `<foo/>` inputs produce the same two stream events) fails with the
no-content error in empty-disallowed mode and yields the empty string in
empty-allowed mode; with non-empty text it succeeds in both modes. -/
theorem string_consume_empty_modes (tagname t : String) (h : t ≠ "") :
    (string.consume [.ok (.startElement tagname []), .ok (.endElement tagname)]
        tagname false = (.error .noStringContent, []))
  ∧ (string.consume [.ok (.startElement tagname []), .ok (.endElement tagname)]
        tagname true = (.ok "", []))
  ∧ (string.consume [.ok (.startElement tagname []), .ok (.characters t),
        .ok (.endElement tagname)] tagname false = (.ok t, []))
  ∧ (string.consume [.ok (.startElement tagname []), .ok (.characters t),
        .ok (.endElement tagname)] tagname true = (.ok t, [])) := by
  refine ⟨?_, ?_, ?_, ?_⟩ <;>
    · rw [string_consume_start]
      simp [stringConsumeLoop, String.isEmpty_iff, h]

theorem string_consume_empty_modes_witness :
    string.consume [.ok (.startElement "cmt" []), .ok (.endElement "cmt")]
        "cmt" true = (.ok "", []) :=
  (string_consume_empty_modes "cmt" "x" (by decide)).2.1

/-- Claim C9: the documented copyright examples. -/
theorem copyright_consume_examples :
    copyright.consume [.ok (.startElement "copyright" [⟨"author", "X"⟩]),
        .ok (.startElement "year" []), .ok (.characters "2020"), .ok (.endElement "year"),
        .ok (.startElement "license" []), .ok (.characters "L"), .ok (.endElement "license"),
        .ok (.endElement "copyright")]
      = (.ok { author := some "X", year := some 2020, license := some "L" }, [])
  ∧ copyright.consume [.ok (.startElement "copyright" [⟨"author", "X"⟩]),
        .ok (.endElement "copyright")]
      = (.ok { author := some "X", year := none, license := none }, []) := by decide

theorem copyrightConsumeLoop_skip (skipped : Events) (fuel : Nat) (s : Events)
    (c : GpxCopyright) (hsk : ∀ e ∈ skipped, compositeIgnorable e = true) :
    copyrightConsumeLoop (skipped.length + fuel) (skipped ++ s) c
      = copyrightConsumeLoop fuel s c := by
  induction skipped with
  | nil => simp
  | cons e tl ih =>
    have he := hsk e (List.mem_cons_self _ _)
    have htl := fun x hx => hsk x (List.mem_cons_of_mem _ hx)
    have hl : (e :: tl).length + fuel = (tl.length + fuel) + 1 := by
      simp
      omega
    rw [hl, List.cons_append]
    match e with
    | .ok (.characters t) =>
      simp only [copyrightConsumeLoop]
      exact ih htl
    | .ok .other =>
      simp only [copyrightConsumeLoop]
      exact ih htl
    | .ok (.startElement a b) => simp [compositeIgnorable] at he
    | .ok (.endElement a) => simp [compositeIgnorable] at he
    | .error m => simp [compositeIgnorable] at he

/-- Claim C10: every copyright element whose year child has empty text fails
with the no-content error (propagated from the string consumer, which is
invoked with empty content disallowed) instead of degrading to an absent
year — for any attributes on the copyright and year opening tags, any
ignorable events (text, comments) preceding the year child, and any trailing
stream, which the error leaves untouched; a self-closing `<year/>` produces
the same two stream events as `<year></year>`. -/
theorem copyright_empty_year_fails (attributes yattrs : List OwnedAttribute)
    (skipped rest : Events) (hsk : ∀ e ∈ skipped, compositeIgnorable e = true) :
    copyright.consume (.ok (.startElement "copyright" attributes) ::
        (skipped ++ .ok (.startElement "year" yattrs) :: .ok (.endElement "year") :: rest))
      = (.error .noStringContent, rest) := by
  have h0 : String.isEmpty "" = true := by decide
  have hv : verify_starting_tag (.ok (.startElement "copyright" attributes) ::
      (skipped ++ .ok (.startElement "year" yattrs) :: .ok (.endElement "year") :: rest))
      "copyright"
      = (.ok attributes,
          skipped ++ .ok (.startElement "year" yattrs) :: .ok (.endElement "year") :: rest) := by
    simp [verify_starting_tag]
  simp only [copyright.consume, hv]
  rw [List.length_append]
  rw [copyrightConsumeLoop_skip skipped _ _ _ hsk]
  simp [copyrightConsumeLoop, string_consume_start, stringConsumeLoop, h0]

theorem copyright_empty_year_fails_witness :
    copyright.consume [.ok (.startElement "copyright" [⟨"author", "X"⟩]),
        .ok (.characters "  "), .ok .other, .ok (.startElement "year" []),
        .ok (.endElement "year"), .ok (.endElement "copyright")]
      = (.error .noStringContent, [.ok (.endElement "copyright")]) := by
  have h := copyright_empty_year_fails [⟨"author", "X"⟩] []
    [.ok (.characters "  "), .ok .other] [.ok (.endElement "copyright")] (by decide)
  simpa using h

theorem isEmpty_eq_false_of_ne (t : String) (h : t ≠ "") : t.isEmpty = false := by
  rw [Bool.eq_false_iff]
  intro hc
  exact h ((String.isEmpty_iff _).mp hc)

/-- Claim C6: a copyright element whose year child holds non-empty text that
fails the integer parse succeeds with an absent year (the other fields
unaffected: the author attribute is still extracted, the license stays
absent). -/
theorem copyright_year_unparsable (t : String) (rest : Events)
    (attributes : List OwnedAttribute) (h1 : t ≠ "") (h2 : parseI32 t = none) :
    copyright.consume (.ok (.startElement "copyright" attributes) ::
        .ok (.startElement "year" []) :: .ok (.characters t) ::
        .ok (.endElement "year") :: .ok (.endElement "copyright") :: rest)
      = (.ok { author := (attributes.find? (fun a => a.name == "author")).map
                  (fun a => a.value),
               year := none, license := none }, rest) := by
  have h1' := isEmpty_eq_false_of_ne t h1
  simp [copyright.consume, verify_starting_tag, copyrightConsumeLoop,
        string_consume_start, stringConsumeLoop, h1', h2]

theorem copyright_year_unparsable_witness :
    copyright.consume [.ok (.startElement "copyright" [⟨"author", "X"⟩]),
        .ok (.startElement "year" []), .ok (.characters "MMXX"),
        .ok (.endElement "year"), .ok (.endElement "copyright")]
      = (.ok { author := some "X", year := none, license := none }, []) := by
  have h := copyright_year_unparsable "MMXX" [] [⟨"author", "X"⟩] (by decide) (by decide)
  simpa using h

/-- Claim C7: a copyright child element that is neither `license` nor `year`
fails with the invalid-child error carrying the child's name and the
enclosing entity name (the offending event stays on the stream, having only
been peeked). -/
theorem copyright_invalid_child (attributes cattrs : List OwnedAttribute)
    (child : String) (rest : Events) (h1 : child ≠ "license") (h2 : child ≠ "year") :
    copyright.consume (.ok (.startElement "copyright" attributes) ::
        .ok (.startElement child cattrs) :: rest)
      = (.error (.invalidChildElement child "copyright"),
          .ok (.startElement child cattrs) :: rest) := by
  simp [copyright.consume, verify_starting_tag, copyrightConsumeLoop, h1, h2]

theorem copyright_invalid_child_witness :
    copyright.consume [.ok (.startElement "copyright" []), .ok (.startElement "baz" [])]
      = (.error (.invalidChildElement "baz" "copyright"), [.ok (.startElement "baz" [])]) :=
  copyright_invalid_child [] [] "baz" [] (by decide) (by decide)

/-- Claim C5, counterexample: when the token source fails while a copyright
element is being parsed, the returned error is `EventParsingError("copyright")`
— it names the entity, but the underlying tokenization error ("boom") is
discarded rather than surfaced verbatim. -/
theorem copyright_drops_tokenizer_error :
    copyright.consume [.ok (.startElement "copyright" []), .error "boom"]
      = (.error (.eventParsingError "copyright"), [.error "boom"])
  ∧ GpxError.surfacedTokenizerError (.eventParsingError "copyright") = none := by decide

/-- Claim C5, amended: on a tokenizer failure the string consumer surfaces
the underlying error verbatim but carries no entity tag; the copyright
consumer discards the underlying error and returns an entity-tagged
`EventParsingError("copyright")`; the track-segment consumer discards the
underlying error and returns `TrackSegmentError` with no payload at all.  In
the latter two the failure is only peeked, hence still on the stream. -/
theorem tokenizer_error_propagation (m : String) (rest : Events)
    (tagname : String) (attrs : List OwnedAttribute) (a : Bool) :
    (string.consume (.ok (.startElement tagname attrs) :: .error m :: rest) tagname a
        = (.error (.xmlParseError m), rest)
      ∧ GpxError.surfacedTokenizerError (.xmlParseError m) = some m)
  ∧ copyright.consume (.ok (.startElement "copyright" attrs) :: .error m :: rest)
        = (.error (.eventParsingError "copyright"), .error m :: rest)
  ∧ tracksegment.consume (.ok (.startElement "trkseg" attrs) :: .error m :: rest)
        = (.error .trackSegmentError, .error m :: rest) := by
  refine ⟨⟨?_, rfl⟩, ?_, ?_⟩
  · rw [string_consume_start]
    simp [stringConsumeLoop]
  · simp [copyright.consume, verify_starting_tag, copyrightConsumeLoop]
  · simp [tracksegment.consume, verify_starting_tag, tracksegmentConsumeLoop]

/-- Claim C3, counterexample: the copyright consumer returns an invalid-child
error while the offending element-open event is still the next unconsumed
event on the stream — so on failure the stream is not positioned after the
entity's closing tag. -/
theorem copyright_error_leaves_event_unconsumed :
    copyright.consume [.ok (.startElement "copyright" []), .ok (.startElement "baz" [])]
      = (.error (.invalidChildElement "baz" "copyright"),
          [.ok (.startElement "baz" [])]) := by decide

theorem verify_starting_tag_suffix (s : Events) (n : String) :
    (verify_starting_tag s n).2 <:+ s := by
  induction s with
  | nil => simp [verify_starting_tag]
  | cons e rest ih =>
    match e with
    | .ok (.startElement name attrs) =>
      simp only [verify_starting_tag]
      split
      · exact List.suffix_cons _ _
      · exact List.suffix_cons _ _
    | .ok (.endElement name) =>
      simp only [verify_starting_tag]
      exact List.suffix_cons _ _
    | .ok (.characters c) =>
      simp only [verify_starting_tag]
      exact List.suffix_cons _ _
    | .ok .other =>
      simp only [verify_starting_tag]
      exact ih.trans (List.suffix_cons _ _)
    | .error m =>
      simp only [verify_starting_tag]
      exact ih.trans (List.suffix_cons _ _)

theorem stringConsumeLoop_suffix (events : Events) (tagname : String) (a : Bool)
    (acc : String) : (stringConsumeLoop events tagname a acc).2 <:+ events := by
  induction events generalizing acc with
  | nil => simp [stringConsumeLoop]
  | cons e rest ih =>
    match e with
    | .error m =>
      simp only [stringConsumeLoop]
      exact List.suffix_cons _ _
    | .ok (.startElement name attrs) =>
      simp only [stringConsumeLoop]
      exact List.suffix_cons _ _
    | .ok (.characters c) =>
      simp only [stringConsumeLoop]
      exact (ih c).trans (List.suffix_cons _ _)
    | .ok (.endElement name) =>
      simp only [stringConsumeLoop]
      split
      · exact List.suffix_cons _ _
      · split
        · exact List.suffix_cons _ _
        · exact List.suffix_cons _ _
    | .ok .other =>
      simp only [stringConsumeLoop]
      exact (ih acc).trans (List.suffix_cons _ _)

theorem string_consume_suffix (context : Events) (tagname : String) (a : Bool) :
    (string.consume context tagname a).2 <:+ context := by
  have hv := verify_starting_tag_suffix context tagname
  unfold string.consume
  match hm : verify_starting_tag context tagname with
  | (.error e, rest) =>
    rw [hm] at hv
    exact hv
  | (.ok v, rest) =>
    rw [hm] at hv
    exact (stringConsumeLoop_suffix rest tagname a "").trans hv

theorem copyrightConsumeLoop_suffix (fuel : Nat) (s : Events) (c : GpxCopyright) :
    (copyrightConsumeLoop fuel s c).2 <:+ s := by
  induction fuel generalizing s c with
  | zero =>
    match s with
    | [] => simp [copyrightConsumeLoop]
    | e :: rest =>
      simp only [copyrightConsumeLoop]
      exact List.suffix_refl _
  | succ f ih =>
    match s with
    | [] => simp [copyrightConsumeLoop]
    | .error m :: rest =>
      simp only [copyrightConsumeLoop]
      exact List.suffix_refl _
    | .ok (.characters t) :: rest =>
      simp only [copyrightConsumeLoop]
      exact (ih rest c).trans (List.suffix_cons _ _)
    | .ok .other :: rest =>
      simp only [copyrightConsumeLoop]
      exact (ih rest c).trans (List.suffix_cons _ _)
    | .ok (.endElement name) :: rest =>
      simp only [copyrightConsumeLoop]
      split
      · exact List.suffix_refl _
      · exact List.suffix_cons _ _
    | .ok (.startElement name attrs) :: rest =>
      simp only [copyrightConsumeLoop]
      split
      · split <;> rename_i hsc
        · have h2 := string_consume_suffix (.ok (.startElement name attrs) :: rest) "license" false
          rw [hsc] at h2
          exact (ih _ _).trans h2
        · have h2 := string_consume_suffix (.ok (.startElement name attrs) :: rest) "license" false
          rw [hsc] at h2
          exact h2
      · split
        · split <;> rename_i hsc
          · have h2 := string_consume_suffix (.ok (.startElement name attrs) :: rest) "year" false
            rw [hsc] at h2
            exact (ih _ _).trans h2
          · have h2 := string_consume_suffix (.ok (.startElement name attrs) :: rest) "year" false
            rw [hsc] at h2
            exact h2
        · exact List.suffix_refl _

theorem copyright_consume_suffix (context : Events) :
    (copyright.consume context).2 <:+ context := by
  have hv := verify_starting_tag_suffix context "copyright"
  unfold copyright.consume
  match hm : verify_starting_tag context "copyright" with
  | (.error e, rest) =>
    rw [hm] at hv
    exact hv
  | (.ok v, rest) =>
    rw [hm] at hv
    exact (copyrightConsumeLoop_suffix rest.length rest _).trans hv

theorem waypointConsumeLoop_suffix (fuel : Nat) (s : Events) (tagname : String)
    (w : Waypoint) : (waypointConsumeLoop fuel s tagname w).2 <:+ s := by
  induction fuel generalizing s w with
  | zero =>
    match s with
    | [] => simp [waypointConsumeLoop]
    | e :: rest =>
      simp only [waypointConsumeLoop]
      exact List.suffix_refl _
  | succ f ih =>
    match s with
    | [] => simp [waypointConsumeLoop]
    | .error m :: rest =>
      simp only [waypointConsumeLoop]
      exact List.suffix_refl _
    | .ok (.characters t) :: rest =>
      simp only [waypointConsumeLoop]
      exact (ih rest w).trans (List.suffix_cons _ _)
    | .ok .other :: rest =>
      simp only [waypointConsumeLoop]
      exact (ih rest w).trans (List.suffix_cons _ _)
    | .ok (.endElement name) :: rest =>
      simp only [waypointConsumeLoop]
      split
      · exact List.suffix_refl _
      · exact List.suffix_cons _ _
    | .ok (.startElement name attrs) :: rest =>
      simp only [waypointConsumeLoop]
      split
      · split <;> rename_i hsc
        · have h2 := string_consume_suffix (.ok (.startElement name attrs) :: rest) "name" false
          rw [hsc] at h2
          exact (ih _ _).trans h2
        · have h2 := string_consume_suffix (.ok (.startElement name attrs) :: rest) "name" false
          rw [hsc] at h2
          exact h2
      · exact List.suffix_refl _

theorem waypoint_consume_suffix (context : Events) (tagname : String) :
    (waypoint.consume context tagname).2 <:+ context := by
  have hv := verify_starting_tag_suffix context tagname
  unfold waypoint.consume
  split <;> rename_i heq
  · rw [heq] at hv
    exact hv
  · rw [heq] at hv
    split
    · split
      · exact hv
      · split
        · exact hv
        · exact (waypointConsumeLoop_suffix _ _ _ _).trans hv
    · exact hv
    · exact hv

theorem tracksegmentConsumeLoop_suffix (fuel : Nat) (s : Events) (seg : TrackSegment) :
    (tracksegmentConsumeLoop fuel s seg).2 <:+ s := by
  induction fuel generalizing s seg with
  | zero =>
    match s with
    | [] => simp [tracksegmentConsumeLoop]
    | e :: rest =>
      simp only [tracksegmentConsumeLoop]
      exact List.suffix_refl _
  | succ f ih =>
    match s with
    | [] => simp [tracksegmentConsumeLoop]
    | .error m :: rest =>
      simp only [tracksegmentConsumeLoop]
      exact List.suffix_refl _
    | .ok (.characters t) :: rest =>
      simp only [tracksegmentConsumeLoop]
      exact (ih rest seg).trans (List.suffix_cons _ _)
    | .ok .other :: rest =>
      simp only [tracksegmentConsumeLoop]
      exact (ih rest seg).trans (List.suffix_cons _ _)
    | .ok (.endElement name) :: rest =>
      simp only [tracksegmentConsumeLoop]
      split
      · exact List.suffix_refl _
      · exact List.suffix_cons _ _
    | .ok (.startElement name attrs) :: rest =>
      simp only [tracksegmentConsumeLoop]
      split
      · split <;> rename_i hsc
        · have h2 := waypoint_consume_suffix (.ok (.startElement name attrs) :: rest) "trkpt"
          rw [hsc] at h2
          exact (ih _ _).trans h2
        · have h2 := waypoint_consume_suffix (.ok (.startElement name attrs) :: rest) "trkpt"
          rw [hsc] at h2
          exact h2
      · exact List.suffix_refl _

theorem tracksegment_consume_suffix (context : Events) :
    (tracksegment.consume context).2 <:+ context := by
  have hv := verify_starting_tag_suffix context "trkseg"
  unfold tracksegment.consume
  split <;> rename_i heq
  · rw [heq] at hv
    exact hv
  · rw [heq] at hv
    exact (tracksegmentConsumeLoop_suffix _ _ _).trans hv

theorem stringConsumeLoop_ok_close (events : Events) (tagname : String) (a : Bool)
    (acc v : String) (s' : Events)
    (h : stringConsumeLoop events tagname a acc = (.ok v, s')) :
    .ok (.endElement tagname) :: s' <:+ events := by
  induction events generalizing acc with
  | nil => simp [stringConsumeLoop] at h
  | cons e rest ih =>
    match e with
    | .error m => simp [stringConsumeLoop] at h
    | .ok (.startElement name attrs) => simp [stringConsumeLoop] at h
    | .ok (.characters c) =>
      simp only [stringConsumeLoop] at h
      exact (ih c h).trans (List.suffix_cons _ _)
    | .ok .other =>
      simp only [stringConsumeLoop] at h
      exact (ih acc h).trans (List.suffix_cons _ _)
    | .ok (.endElement name) =>
      simp only [stringConsumeLoop] at h
      split at h
      · simp at h
      · rename_i hne
        have hn : name = tagname := by
          by_contra hc
          exact hne (by simp [hc])
        subst hn
        split at h
        · have h2 : acc = v ∧ rest = s' := by simpa using h
          obtain ⟨rfl, rfl⟩ := h2
          exact List.suffix_refl _
        · simp at h

theorem string_consume_ok_close (context : Events) (tagname : String) (a : Bool)
    (v : String) (s' : Events) (h : string.consume context tagname a = (.ok v, s')) :
    .ok (.endElement tagname) :: s' <:+ context := by
  have hv := verify_starting_tag_suffix context tagname
  unfold string.consume at h
  split at h <;> rename_i heq
  · simp at h
  · rw [heq] at hv
    exact (stringConsumeLoop_ok_close _ _ _ _ _ _ h).trans hv

theorem copyrightConsumeLoop_ok_close (fuel : Nat) (s : Events)
    (c c' : GpxCopyright) (s' : Events)
    (h : copyrightConsumeLoop fuel s c = (.ok c', s')) :
    .ok (.endElement "copyright") :: s' <:+ s := by
  induction fuel generalizing s c with
  | zero =>
    match s with
    | [] => simp [copyrightConsumeLoop] at h
    | e :: rest => simp [copyrightConsumeLoop] at h
  | succ f ih =>
    match s with
    | [] => simp [copyrightConsumeLoop] at h
    | .error m :: rest => simp [copyrightConsumeLoop] at h
    | .ok (.characters t) :: rest =>
      simp only [copyrightConsumeLoop] at h
      exact (ih rest c h).trans (List.suffix_cons _ _)
    | .ok .other :: rest =>
      simp only [copyrightConsumeLoop] at h
      exact (ih rest c h).trans (List.suffix_cons _ _)
    | .ok (.endElement name) :: rest =>
      simp only [copyrightConsumeLoop] at h
      split at h
      · simp at h
      · rename_i hne
        have hn : name = "copyright" := by
          by_contra hc
          exact hne (by simp [hc])
        subst hn
        have h2 : c = c' ∧ rest = s' := by simpa using h
        obtain ⟨rfl, rfl⟩ := h2
        exact List.suffix_refl _
    | .ok (.startElement name attrs) :: rest =>
      simp only [copyrightConsumeLoop] at h
      split at h
      · split at h <;> rename_i hsc
        · have h2 := string_consume_suffix (.ok (.startElement name attrs) :: rest) "license" false
          rw [hsc] at h2
          exact (ih _ _ h).trans h2
        · simp at h
      · split at h
        · split at h <;> rename_i hsc
          · have h2 := string_consume_suffix (.ok (.startElement name attrs) :: rest) "year" false
            rw [hsc] at h2
            exact (ih _ _ h).trans h2
          · simp at h
        · simp at h

theorem copyright_consume_ok_close (context : Events) (c : GpxCopyright)
    (s' : Events) (h : copyright.consume context = (.ok c, s')) :
    .ok (.endElement "copyright") :: s' <:+ context := by
  have hv := verify_starting_tag_suffix context "copyright"
  unfold copyright.consume at h
  split at h <;> rename_i heq
  · simp at h
  · rw [heq] at hv
    exact (copyrightConsumeLoop_ok_close _ _ _ _ _ h).trans hv

theorem tracksegmentConsumeLoop_ok_close (fuel : Nat) (s : Events)
    (seg seg' : TrackSegment) (s' : Events)
    (h : tracksegmentConsumeLoop fuel s seg = (.ok seg', s')) :
    .ok (.endElement "trkseg") :: s' <:+ s := by
  induction fuel generalizing s seg with
  | zero =>
    match s with
    | [] => simp [tracksegmentConsumeLoop] at h
    | e :: rest => simp [tracksegmentConsumeLoop] at h
  | succ f ih =>
    match s with
    | [] => simp [tracksegmentConsumeLoop] at h
    | .error m :: rest => simp [tracksegmentConsumeLoop] at h
    | .ok (.characters t) :: rest =>
      simp only [tracksegmentConsumeLoop] at h
      exact (ih rest seg h).trans (List.suffix_cons _ _)
    | .ok .other :: rest =>
      simp only [tracksegmentConsumeLoop] at h
      exact (ih rest seg h).trans (List.suffix_cons _ _)
    | .ok (.endElement name) :: rest =>
      simp only [tracksegmentConsumeLoop] at h
      split at h
      · simp at h
      · rename_i hne
        have hn : name = "trkseg" := by
          by_contra hc
          exact hne (by simp [hc])
        subst hn
        have h2 : seg = seg' ∧ rest = s' := by simpa using h
        obtain ⟨rfl, rfl⟩ := h2
        exact List.suffix_refl _
    | .ok (.startElement name attrs) :: rest =>
      simp only [tracksegmentConsumeLoop] at h
      split at h
      · split at h <;> rename_i hsc
        · have h2 := waypoint_consume_suffix (.ok (.startElement name attrs) :: rest) "trkpt"
          rw [hsc] at h2
          exact (ih _ _ h).trans h2
        · simp at h
      · simp at h

theorem tracksegment_consume_ok_close (context : Events) (seg : TrackSegment)
    (s' : Events) (h : tracksegment.consume context = (.ok seg, s')) :
    .ok (.endElement "trkseg") :: s' <:+ context := by
  have hv := verify_starting_tag_suffix context "trkseg"
  unfold tracksegment.consume at h
  split at h <;> rename_i heq
  · simp at h
  · rw [heq] at hv
    exact (tracksegmentConsumeLoop_ok_close _ _ _ _ _ h).trans hv

/-- Claim C3, amended: on success each consumer (string leaf, copyright,
track segment) leaves the stream positioned immediately after its own
closing tag — the closing event followed by the returned stream is a
contiguous suffix of the input.  On failure this does not hold in general:
the copyright and track-segment consumers detect invalid children,
mismatched closing tags and tokenizer failures by peeking, and return those
errors with the offending event still unconsumed (see the counterexample). -/
theorem consumers_position_after_close (s : Events) :
    (∀ tagname a v s', string.consume s tagname a = (.ok v, s') →
        .ok (.endElement tagname) :: s' <:+ s)
  ∧ (∀ c s', copyright.consume s = (.ok c, s') →
        .ok (.endElement "copyright") :: s' <:+ s)
  ∧ (∀ seg s', tracksegment.consume s = (.ok seg, s') →
        .ok (.endElement "trkseg") :: s' <:+ s) :=
  ⟨fun tagname a v s' h => string_consume_ok_close s tagname a v s' h,
   fun c s' h => copyright_consume_ok_close s c s' h,
   fun seg s' h => tracksegment_consume_ok_close s seg s' h⟩

theorem consumers_position_after_close_witness :
    ([.ok (.endElement "name")] :
        Events) <:+ [.ok (.startElement "name" []), .ok (.characters "x"), .ok (.endElement "name")]
  ∧ ([.ok (.endElement "copyright")] :
        Events) <:+ [.ok (.startElement "copyright" []), .ok (.endElement "copyright")]
  ∧ ([.ok (.endElement "trkseg")] :
        Events) <:+ [.ok (.startElement "trkseg" []), .ok (.endElement "trkseg")] :=
  ⟨(consumers_position_after_close _).1 "name" false "x" [] (by decide),
   (consumers_position_after_close _).2.1 { author := none } [] (by decide),
   (consumers_position_after_close _).2.2 {} [] (by decide)⟩
theorem waypoint_consume_trkpt (la lo nm : String) (rest : Events)
    (hla : isF64Lit la = true) (hlo : isF64Lit lo = true) (hnm : nm ≠ "") :
    waypoint.consume (.ok (.startElement "trkpt" [⟨"lat", la⟩, ⟨"lon", lo⟩]) ::
        .ok (.startElement "name" []) :: .ok (.characters nm) :: .ok (.endElement "name") ::
        .ok (.endElement "trkpt") :: rest) "trkpt"
      = (.ok { lat := la, lon := lo, name := some nm }, rest) := by
  have hnm' := isEmpty_eq_false_of_ne nm hnm
  simp [waypoint.consume, verify_starting_tag, List.find?, waypointConsumeLoop,
        string_consume_start, stringConsumeLoop, hla, hlo, hnm']

theorem tracksegmentConsumeLoop_points (pts : List (String × String × String))
    (rest : Events) (seg : TrackSegment) (fuel : Nat)
    (hfuel : (pts.flatMap (fun p => mkTrkptEvents p.1 p.2.1 p.2.2) ++
        .ok (.endElement "trkseg") :: rest).length ≤ fuel)
    (hpts : ∀ p ∈ pts, isF64Lit p.1 = true ∧ isF64Lit p.2.1 = true ∧ p.2.2 ≠ "") :
    tracksegmentConsumeLoop fuel
        (pts.flatMap (fun p => mkTrkptEvents p.1 p.2.1 p.2.2) ++
          .ok (.endElement "trkseg") :: rest) seg
      = (.ok { points := seg.points ++ pts.map trkptValue }, rest) := by
  induction pts generalizing seg fuel with
  | nil =>
    match fuel, hfuel with
    | f + 1, _ => simp [tracksegmentConsumeLoop]
  | cons p ps ih =>
    obtain ⟨la, lo, nm⟩ := p
    obtain ⟨hla, hlo, hnm⟩ := hpts (la, lo, nm) (List.mem_cons_self _ _)
    have hw := waypoint_consume_trkpt la lo nm
      (ps.flatMap (fun p => mkTrkptEvents p.1 p.2.1 p.2.2) ++ .ok (.endElement "trkseg") :: rest)
      hla hlo hnm
    have hstep : ((la, lo, nm) :: ps).flatMap (fun p => mkTrkptEvents p.1 p.2.1 p.2.2) ++
          .ok (.endElement "trkseg") :: rest
        = .ok (.startElement "trkpt" [⟨"lat", la⟩, ⟨"lon", lo⟩]) ::
          .ok (.startElement "name" []) :: .ok (.characters nm) :: .ok (.endElement "name") ::
          .ok (.endElement "trkpt") ::
          (ps.flatMap (fun p => mkTrkptEvents p.1 p.2.1 p.2.2) ++
            .ok (.endElement "trkseg") :: rest) := by
      simp [mkTrkptEvents]
    match fuel, hfuel with
    | f + 1, hfuel =>
      have hlen : (ps.flatMap (fun p => mkTrkptEvents p.1 p.2.1 p.2.2) ++
          .ok (.endElement "trkseg") :: rest).length ≤ f := by
        rw [hstep] at hfuel
        simpa using Nat.le_of_succ_le_succ (Nat.le_trans (by simp) hfuel)
      rw [hstep]
      simp only [tracksegmentConsumeLoop, reduceIte]
      simp only [hw]
      rw [ih _ _ hlen (fun q hq => hpts q (List.mem_cons_of_mem _ hq))]
      simp [trkptValue]

/-- Claim C2: a well-formed trkseg input holding one trkpt per listed triple
— each with lat/lon attribute values in the f64 parse domain and a non-empty
name child — parses successfully, consuming the whole input, to a segment
whose points collection has exactly one waypoint per input trkpt, in input
order, with the i-th name field equal to the i-th input name; the empty
input `<trkseg></trkseg>` is the empty-list instance, yielding an empty
points collection. -/
theorem tracksegment_consume_roundtrip (pts : List (String × String × String))
    (hpts : ∀ p ∈ pts, isF64Lit p.1 = true ∧ isF64Lit p.2.1 = true ∧ p.2.2 ≠ "") :
    tracksegment.consume (mkTrksegEvents pts) = (.ok { points := pts.map trkptValue }, [])
  ∧ (pts.map trkptValue).length = pts.length
  ∧ (pts.map trkptValue).map Waypoint.name = pts.map (fun p => some p.2.2) := by
  refine ⟨?_, by simp, by simp [trkptValue]⟩
  have hloop := tracksegmentConsumeLoop_points pts [] {} _ (Nat.le_refl _) hpts
  simp only [mkTrksegEvents, tracksegment.consume, verify_starting_tag, reduceIte]
  simpa using hloop

theorem tracksegment_consume_roundtrip_witness :
    tracksegment.consume (mkTrksegEvents
        [("38.8977", "-77.0365", "The White House"),
         ("42.358056", "-71.063611", "Boston, Massachusetts")])
      = (.ok { points :=
          [{ lat := "38.8977", lon := "-77.0365", name := some "The White House" },
           { lat := "42.358056", lon := "-71.063611", name := some "Boston, Massachusetts" }] },
         []) := by
  have h := (tracksegment_consume_roundtrip
    [("38.8977", "-77.0365", "The White House"),
     ("42.358056", "-71.063611", "Boston, Massachusetts")] (by decide)).1
  simpa [trkptValue] using h
